import Mathlib

/-!
Verification of the notebook import-hook mechanism of this repository
(the functions find_notebook, NotebookLoader.load_module and
NotebookFinder.find_module).  The Python code is shallowly embedded:
the file system is a predicate on paths, the notebook reader is a
partial function from paths to parsed notebooks, and the mutable
process state (sys.modules, shell.user_ns, the finder's loader cache)
is threaded explicitly.
-/

namespace NbImport

/-- Values a namespace binds, at the granularity the import hook handles
them: module metadata strings, the get_ipython function, the loader
object, integers produced by the executed fragments, and None. -/
inductive PyVal : Type
  | pynone : PyVal
  | int : Int → PyVal
  | str : String → PyVal
  | func : String → PyVal
  | loaderRef : PyVal
  deriving DecidableEq, Repr

/-- Lookup in an association list, modelling Python dict read d[k]. -/
def lookupKey {κ α : Type} [DecidableEq κ] : List (κ × α) → κ → Option α
  | [], _ => Option.none
  | (y, v) :: rest, x => if y = x then some v else lookupKey rest x

/-- Update of an association list, modelling Python dict write d[k] = v:
an existing key is overwritten in place, a new key is appended. -/
def insertKey {κ α : Type} [DecidableEq κ] : List (κ × α) → κ → α → List (κ × α)
  | [], x, v => [(x, v)]
  | (y, w) :: rest, x, v =>
      if y = x then (x, v) :: rest else (y, w) :: insertKey rest x v

/-- Last dotted segment of a module name: fullname.rsplit with the dot
separator, last element, i.e. everything after the last dot (the whole
name when there is no dot). -/
def base_name (fullname : String) : String :=
  String.mk ((fullname.data.reverse.takeWhile fun c => c ≠ '.').reverse)

/-- POSIX os.path.join of a directory and a file name: an absolute second
component wins; otherwise the pieces are glued with a slash unless the
directory is empty or already ends in a slash. -/
def path_join (d f : String) : String :=
  if f.data.take 1 = ['/'] then f
  else if d = "" then f
  else if d.data.getLast? = some '/' then d ++ f
  else d ++ "/" ++ f

/-- nb_path.replace of underscore by space: the pattern is a single
character, so the Python replace is exactly a character-wise map. -/
def replace_underscores (s : String) : String :=
  String.mk (s.data.map fun c => if c = '_' then ' ' else c)

/-- First candidate find_notebook probes in directory d:
os.path.join of d and the base name with the .ipynb extension. -/
def nb_candidate (name d : String) : String :=
  path_join d (name ++ ".ipynb")

/-- Second candidate find_notebook probes in directory d: the first one
with every underscore replaced by a space. -/
def nb_candidate_spaced (name d : String) : String :=
  replace_underscores (nb_candidate name d)

/-- The directory loop of find_notebook: in each directory, probe the
plain candidate, then the underscore-to-space variant, and return the
first hit; fs is os.path.isfile. -/
def find_in_dirs (name : String) (fs : String → Bool) : List String → Option String
  | [] => Option.none
  | d :: rest =>
      let nb1 := path_join d (name ++ ".ipynb")
      if fs nb1 then some nb1
      else
        let nb2 := replace_underscores nb1
        if fs nb2 then some nb2
        else find_in_dirs name fs rest

/-- find_notebook fullname path: take the last dotted segment as base
name; a falsy path (absent, or the empty list) is replaced by the list
holding the single empty directory, then the directories are scanned
in order. -/
def find_notebook (fullname : String) (path : Option (List String))
    (fs : String → Bool) : Option String :=
  let name := base_name fullname
  let dirs : List String :=
    match path with
    | Option.none => [""]
    | some [] => [""]
    | some ds => ds
  find_in_dirs name fs dirs

/-- Expressions of the executed fragments, at the granularity the claims
need: integer literals, variable reads and addition. -/
inductive PExpr : Type
  | lit : Int → PExpr
  | var : String → PExpr
  | add : PExpr → PExpr → PExpr
  deriving DecidableEq, Repr

/-- Statements of the executed fragments: an assignment, or a statement
that raises. -/
inductive Stmt : Type
  | assign : String → PExpr → Stmt
  | raiseErr : Stmt
  deriving DecidableEq, Repr

/-- A module namespace: the dict of the module object. -/
abbrev Namespace := List (String × PyVal)

/-- Expression evaluation against a namespace; a missing name or an
ill-typed addition yields no value (a raised exception). -/
def evalExpr (ns : Namespace) : PExpr → Option PyVal
  | .lit n => some (.int n)
  | .var x => lookupKey ns x
  | .add a b =>
      match evalExpr ns a, evalExpr ns b with
      | some (.int m), some (.int n) => some (.int (m + n))
      | _, _ => Option.none

/-- Execution of one statement against a namespace. -/
def execStmt (ns : Namespace) : Stmt → Except String Namespace
  | .assign x e =>
      match evalExpr ns e with
      | some v => .ok (insertKey ns x v)
      | Option.none => .error "NameError"
  | .raiseErr => .error "Exception"

/-- Python exec of a cell body against the module dict: statements run
in order and mutate the dict in place, so the effects of the statements
before a raising one persist. -/
def execCode : List Stmt → Namespace → Except String Unit × Namespace
  | [], ns => (.ok (), ns)
  | s :: rest, ns =>
      match execStmt ns s with
      | .ok ns2 => execCode rest ns2
      | .error e => (.error e, ns)

/-- One notebook cell: the loader reads only the cell_type tag and the
source field. -/
structure Cell where
  cell_type : String
  source : List Stmt
  deriving DecidableEq, Repr

/-- A parsed notebook: an ordered list of cells. -/
structure Notebook where
  cells : List Cell
  deriving DecidableEq, Repr

/-- Modelled from the spec: the input transform of the host shell
(IPython library code, not part of this repository) turns extended
syntax into directly executable code; on the pure-Python fragments
modelled here it is the identity. -/
def transform_cell (src : List Stmt) : List Stmt := src

/-- The cell loop of load_module: only cells whose cell_type is code are
executed, in document order, each against the single accumulating
namespace; the first raising cell stops the loop and the error carries
out, leaving the namespace as the failed cell left it. -/
def run_cells : List Cell → Namespace → Except String Unit × Namespace
  | [], ns => (.ok (), ns)
  | c :: rest, ns =>
      if c.cell_type = "code" then
        match execCode (transform_cell c.source) ns with
        | (.ok _, ns2) => run_cells rest ns2
        | (.error e, ns2) => (.error e, ns2)
      else
        run_cells rest ns

/-- The module dict immediately before the cell loop starts: a fresh
Python 3 types.ModuleType dict pre-fills __name__, __doc__, __package__,
__loader__ and __spec__ (the latter four with None), then load_module
assigns the file attribute, overwrites the loader attribute with the
loader object, and adds the get_ipython binding. -/
def module_init_ns (fullname nb_path : String) : Namespace :=
  insertKey (insertKey (insertKey
    [("__name__", PyVal.str fullname), ("__doc__", PyVal.pynone),
     ("__package__", PyVal.pynone), ("__loader__", PyVal.pynone),
     ("__spec__", PyVal.pynone)]
    "__file__" (PyVal.str nb_path))
    "__loader__" PyVal.loaderRef)
    "get_ipython" (PyVal.func "get_ipython")

/-- The process state load_module touches: the module registry
sys.modules (name to module dict) and the shell user namespace. -/
structure ImportState where
  sys_modules : List (String × Namespace)
  user_ns : Namespace
  deriving DecidableEq, Repr

/-- NotebookLoader.load_module.  Steps, as in the source: resolve the
file with find_notebook (a missing file raises on open, before any
state is touched); read and parse the notebook (a failure there also
precedes any state change); build the module with its pre-populated
dict; register it in sys.modules; save the shell user namespace and
point it at the module dict; run the code cells; finally restore the
user namespace.  The module object registered in sys.modules is the
same object the loop mutates, so the registry entry reflects the final
dict even when a cell raised, and nothing removes it on failure. -/
def load_module (self_path : Option (List String)) (fullname : String)
    (fs : String → Bool) (readNb : String → Option Notebook)
    (st : ImportState) : Except String Namespace × ImportState :=
  match find_notebook fullname self_path fs with
  | Option.none => (.error "TypeError", st)
  | some nb_path =>
      match readNb nb_path with
      | Option.none => (.error "ReadError", st)
      | some nb =>
          match run_cells nb.cells (module_init_ns fullname nb_path) with
          | (.ok _, ns2) =>
              (.ok ns2,
               { sys_modules := insertKey st.sys_modules fullname ns2,
                 user_ns := st.user_ns })
          | (.error e, ns2) =>
              (.error e,
               { sys_modules := insertKey st.sys_modules fullname ns2,
                 user_ns := st.user_ns })

/-- A NotebookLoader object: the stored search path, plus an allocation
number standing for Python object identity (each NotebookLoader call
builds a distinct object). -/
structure NotebookLoader where
  path : Option (List String)
  oid : Nat
  deriving DecidableEq, Repr

/-- The cache key find_module derives from the path argument: the raw
None for an absent path, the os.path.sep join of a nonempty list. -/
inductive FinderKey : Type
  | nonePath : FinderKey
  | joined : String → FinderKey
  deriving DecidableEq, Repr

/-- os.path.sep.join of a list of directories: the separator between
consecutive elements. -/
def sep_join : List String → String
  | [] => ""
  | [d] => d
  | d :: rest => d ++ "/" ++ sep_join rest

/-- Key derivation of find_module: key = path, then a truthy path is
replaced by the separator join.  The empty list stays a list, and the
membership test on the dict then hashes it and raises TypeError. -/
def path_key : Option (List String) → Except String FinderKey
  | Option.none => .ok FinderKey.nonePath
  | some [] => .error "TypeError: unhashable key"
  | some ds => .ok (FinderKey.joined (sep_join ds))

/-- NotebookFinder state: the loaders cache (key to loader) and the
allocation counter for loader identities. -/
structure FinderState where
  loaders : List (FinderKey × NotebookLoader)
  next_oid : Nat
  deriving DecidableEq, Repr

/-- A freshly constructed NotebookFinder: empty loader cache. -/
def finderInit : FinderState := ⟨[], 0⟩

/-- Cache step of find_module: return the cached loader for the key, or
construct a NotebookLoader for the path, store it and return it. -/
def loader_for_key (st : FinderState) (k : FinderKey)
    (p : Option (List String)) : NotebookLoader × FinderState :=
  match lookupKey st.loaders k with
  | some L => (L, st)
  | Option.none =>
      let L : NotebookLoader := ⟨p, st.next_oid⟩
      (L, ⟨insertKey st.loaders k L, st.next_oid + 1⟩)

/-- NotebookFinder.find_module: locate the notebook with find_notebook
and decline (return None) when there is none; otherwise derive the
cache key (raising on the unhashable empty-list key) and return the
cached or fresh loader for it. -/
def find_module (st : FinderState) (fullname : String)
    (path : Option (List String)) (fs : String → Bool) :
    Except String (Option NotebookLoader × FinderState) :=
  match find_notebook fullname path fs with
  | Option.none => .ok (Option.none, st)
  | some _ =>
      match path_key path with
      | .error e => .error e
      | .ok k =>
          let r := loader_for_key st k path
          .ok (some r.1, r.2)

/-- Concrete file system holding only the file mynb.ipynb in the current
directory. -/
def fs_mynb : String → Bool := fun q => decide (q = "mynb.ipynb")

/-- Concrete reader returning a notebook with no cells for every path. -/
def read_empty : String → Option Notebook := fun _ => some ⟨[]⟩

/-- Concrete notebook whose first fragment binds x and whose second
fragment raises. -/
def nb_bad : Notebook :=
  ⟨[⟨"code", [Stmt.assign "x" (PExpr.lit 1)]⟩, ⟨"code", [Stmt.raiseErr]⟩]⟩

/-- Concrete file system holding only bad.ipynb. -/
def fs_bad : String → Bool := fun q => decide (q = "bad.ipynb")

/-- Concrete reader that parses bad.ipynb to the raising notebook. -/
def read_bad : String → Option Notebook :=
  fun q => if q = "bad.ipynb" then some nb_bad else Option.none

/-- Concrete notebook with a prose cell and two code fragments binding
x to one and then y to x plus one. -/
def nb_seq : Notebook :=
  ⟨[⟨"markdown", []⟩,
    ⟨"code", [Stmt.assign "x" (PExpr.lit 1)]⟩,
    ⟨"code", [Stmt.assign "y" (PExpr.add (PExpr.var "x") (PExpr.lit 1))]⟩]⟩

/-- Concrete file system holding only seq.ipynb. -/
def fs_seq : String → Bool := fun q => decide (q = "seq.ipynb")

/-- Concrete reader that parses seq.ipynb to the two-fragment notebook. -/
def read_seq : String → Option Notebook :=
  fun q => if q = "seq.ipynb" then some nb_seq else Option.none

/-- Concrete file system where the spaced path exists but the underscored
one does not, in a directory whose own name carries the underscore. -/
def fs_space : String → Bool := fun q => decide (q = "my dir/Foo.ipynb")

/-- Concrete file system holding only lib/helpers.ipynb. -/
def fs_lib : String → Bool := fun q => decide (q = "lib/helpers.ipynb")

/-- Concrete file system holding a/x.ipynb and a/b/x.ipynb: makes the two
search paths with colliding joined keys both locate a notebook. -/
def fs_two : String → Bool :=
  fun q => decide (q = "a/x.ipynb") || decide (q = "a/b/x.ipynb")

/-- The loader the first fs_two call creates for the search path of the
two directories a and b. -/
def loader_ab : NotebookLoader := ⟨some ["a", "b"], 0⟩

/-- The finder state after that first call: one cached loader under the
joined key. -/
def finder_ab : FinderState := ⟨[(FinderKey.joined "a/b", loader_ab)], 1⟩

/-- Concrete file system where only the spaced file in the directory lib
exists. -/
def fs_foo : String → Bool := fun q => decide (q = "lib/Foo Bar.ipynb")

theorem lookupKey_insertKey_self {κ α : Type} [DecidableEq κ]
    (l : List (κ × α)) (k : κ) (v : α) :
    lookupKey (insertKey l k v) k = some v := by
  induction l with
  | nil => simp [insertKey, lookupKey]
  | cons hd t ih =>
      obtain ⟨y, w⟩ := hd
      by_cases hy : y = k
      · subst hy
        simp [insertKey, lookupKey]
      · simp [insertKey, lookupKey, hy, ih]

theorem path_join_empty (f : String) : path_join "" f = f := by
  unfold path_join
  split
  · rfl
  · simp

/-- Claim C9: load_module restores the shell user namespace to its prior
value on every path out of the call, whether the import succeeds, a
fragment raises, the file is missing, or the parse fails. -/
theorem load_module_restores_user_ns (sp : Option (List String)) (fullname : String)
    (fs : String → Bool) (readNb : String → Option Notebook) (st : ImportState) :
    ((load_module sp fullname fs readNb st).2).user_ns = st.user_ns := by
  unfold load_module
  split
  · rfl
  · split
    · rfl
    · split <;> rfl

/-- Claim C7: the outcome of load_module does not depend on any previously
accumulated state; every invocation re-reads the file, re-runs the cells
and builds its namespace afresh, so an already registered module under
the same name is ignored and re-import yields the freshly built result. -/
theorem load_module_no_content_caching (sp : Option (List String)) (fullname : String)
    (fs : String → Bool) (readNb : String → Option Notebook) :
    ∀ st st2 : ImportState,
      (load_module sp fullname fs readNb st).1 = (load_module sp fullname fs readNb st2).1 := by
  intro st st2
  unfold load_module
  split
  · rfl
  · split
    · rfl
    · split <;> rfl

/-- Claim C8: an empty or absent search list makes find_notebook scan the
single implicit current-directory entry: it probes the bare base file
name with the .ipynb extension and then its underscore-to-space
variant, both relative paths in the current directory. -/
theorem find_notebook_empty_path_current_dir (fullname : String) (fs : String → Bool) :
    find_notebook fullname (some []) fs = find_notebook fullname (some [""]) fs
  ∧ find_notebook fullname Option.none fs = find_notebook fullname (some [""]) fs
  ∧ find_notebook fullname (some []) fs =
      (if fs (base_name fullname ++ ".ipynb") then some (base_name fullname ++ ".ipynb")
       else if fs (replace_underscores (base_name fullname ++ ".ipynb")) then
         some (replace_underscores (base_name fullname ++ ".ipynb"))
       else Option.none) := by
  refine ⟨rfl, rfl, ?_⟩
  show find_in_dirs (base_name fullname) fs [""] = _
  simp only [find_in_dirs, path_join_empty]

/-- Claim C1 counterexample: importing a document whose second fragment
raises does leave a module registered under the requested name, and the
registered dict even holds the binding made by the first fragment. -/
theorem load_module_failure_publishes_module_cex :
    (load_module Option.none "bad" fs_bad read_bad ⟨[], []⟩).1 = .error "Exception"
  ∧ lookupKey ((load_module Option.none "bad" fs_bad read_bad ⟨[], []⟩).2).sys_modules "bad"
      = some (insertKey (module_init_ns "bad" "bad.ipynb") "x" (PyVal.int 1))
  ∧ lookupKey (insertKey (module_init_ns "bad" "bad.ipynb") "x" (PyVal.int 1)) "x"
      = some (PyVal.int 1) := ⟨rfl, rfl, rfl⟩

/-- Claim C1 amended: load_module registers the module in sys.modules
before executing fragments; when a fragment raises, the error
propagates but the partially populated module stays registered under
the requested name (only resolution and read failures, which precede
the registration, leave the registry untouched). -/
theorem load_module_failure_keeps_registration
    (sp : Option (List String)) (fullname : String) (fs : String → Bool)
    (readNb : String → Option Notebook) (st : ImportState)
    (nb : Notebook) (p e : String) (ns2 : Namespace)
    (h1 : find_notebook fullname sp fs = some p)
    (h2 : readNb p = some nb)
    (h3 : run_cells nb.cells (module_init_ns fullname p) = (.error e, ns2)) :
    (load_module sp fullname fs readNb st).1 = .error e
  ∧ lookupKey ((load_module sp fullname fs readNb st).2).sys_modules fullname = some ns2 := by
  unfold load_module
  simp only [h1, h2, h3]
  exact ⟨trivial, lookupKey_insertKey_self st.sys_modules fullname ns2⟩

theorem load_module_failure_keeps_registration_witness :
    find_notebook "bad" Option.none fs_bad = some "bad.ipynb"
  ∧ read_bad "bad.ipynb" = some nb_bad
  ∧ ((load_module Option.none "bad" fs_bad read_bad ⟨[], []⟩).1 = .error "Exception"
     ∧ lookupKey ((load_module Option.none "bad" fs_bad read_bad ⟨[], []⟩).2).sys_modules "bad"
         = some (insertKey (module_init_ns "bad" "bad.ipynb") "x" (PyVal.int 1))) :=
  ⟨rfl, rfl,
    load_module_failure_keeps_registration Option.none "bad" fs_bad read_bad ⟨[], []⟩
      nb_bad "bad.ipynb" "Exception"
      (insertKey (module_init_ns "bad" "bad.ipynb") "x" (PyVal.int 1)) rfl rfl rfl⟩

/-- Claim C2 counterexample: importing a document with no fragments at
all yields a nonempty namespace: the get_ipython binding (and the
module metadata) are present although no fragment ever executed, so the
namespace is not created empty and not every binding comes from the
fragments. -/
theorem load_module_namespace_not_empty_cex :
    (load_module Option.none "mynb" fs_mynb read_empty ⟨[], []⟩).1
      = .ok (module_init_ns "mynb" "mynb.ipynb")
  ∧ lookupKey (module_init_ns "mynb" "mynb.ipynb") "get_ipython"
      = some (PyVal.func "get_ipython")
  ∧ module_init_ns "mynb" "mynb.ipynb" ≠ [] := ⟨rfl, rfl, by decide⟩

/-- Claim C2 amended: immediately before the first fragment executes, the
namespace holds exactly the seven pre-populated bindings __name__,
__doc__, __package__, __loader__, __spec__, __file__ and get_ipython
(the first five put there by types.ModuleType, the rest by the loader);
a successful import returns the namespace obtained by running the code
cells from that initial namespace, so every other binding comes from
the fragments. -/
theorem load_module_initial_bindings
    (sp : Option (List String)) (fullname : String) (fs : String → Bool)
    (readNb : String → Option Notebook) (st : ImportState)
    (nb : Notebook) (p : String) (ns2 : Namespace)
    (h1 : find_notebook fullname sp fs = some p)
    (h2 : readNb p = some nb)
    (h3 : run_cells nb.cells (module_init_ns fullname p) = (.ok (), ns2)) :
    (load_module sp fullname fs readNb st).1 = .ok ns2
  ∧ (module_init_ns fullname p).map Prod.fst =
      ["__name__", "__doc__", "__package__", "__loader__", "__spec__",
       "__file__", "get_ipython"] := by
  constructor
  · unfold load_module
    simp only [h1, h2, h3]
  · rfl

theorem load_module_initial_bindings_witness :
    find_notebook "mynb" Option.none fs_mynb = some "mynb.ipynb"
  ∧ read_empty "mynb.ipynb" = some ⟨[]⟩
  ∧ ((load_module Option.none "mynb" fs_mynb read_empty ⟨[], []⟩).1
        = .ok (module_init_ns "mynb" "mynb.ipynb")
     ∧ (module_init_ns "mynb" "mynb.ipynb").map Prod.fst
        = ["__name__", "__doc__", "__package__", "__loader__", "__spec__",
           "__file__", "get_ipython"]) :=
  ⟨rfl, rfl,
    load_module_initial_bindings Option.none "mynb" fs_mynb read_empty ⟨[], []⟩
      ⟨[]⟩ "mynb.ipynb" (module_init_ns "mynb" "mynb.ipynb") rfl rfl rfl⟩

/-- Claim C10: calling find_module with the empty list as search path,
when find_notebook does locate a notebook for it, raises the unhashable
key error instead of returning a loader or declining: the empty list is
falsy, so it is kept as the raw dict key. -/
theorem find_module_empty_list_raises (st : FinderState) (fullname : String)
    (fs : String → Bool) (p : String)
    (h : find_notebook fullname (some []) fs = some p) :
    find_module st fullname (some []) fs = .error "TypeError: unhashable key" := by
  unfold find_module
  simp only [h]
  rfl

theorem find_module_empty_list_raises_witness :
    find_notebook "mynb" (some []) fs_mynb = some "mynb.ipynb"
  ∧ find_module finderInit "mynb" (some []) fs_mynb = .error "TypeError: unhashable key" :=
  ⟨rfl, find_module_empty_list_raises finderInit "mynb" fs_mynb "mynb.ipynb" rfl⟩

theorem run_cells_filter_code (cells : List Cell) (ns : Namespace) :
    run_cells cells ns
      = run_cells (cells.filter fun c => decide (c.cell_type = "code")) ns := by
  induction cells generalizing ns with
  | nil => rfl
  | cons c rest ih =>
      by_cases hc : c.cell_type = "code"
      · rw [List.filter_cons_of_pos (by simpa using hc)]
        show run_cells (c :: rest) ns = run_cells (c :: _) ns
        rw [run_cells, run_cells, if_pos hc, if_pos hc]
        cases hec : execCode (transform_cell c.source) ns with
        | mk r ns2 => cases r <;> simp [ih]
      · rw [List.filter_cons_of_neg (by simpa using hc)]
        rw [run_cells, if_neg hc]
        exact ih ns

/-- Claim C5: the cell loop executes exactly the cells tagged code (the
run over a cell list equals the run over its code-only filtration), in
document order, against the one accumulating namespace; on the concrete
document binding x to one and then y to x plus one, the import succeeds
and the resulting namespace binds y to two. -/
theorem run_cells_code_cells_in_order :
    (∀ (cells : List Cell) (ns : Namespace),
        run_cells cells ns
          = run_cells (cells.filter fun c => decide (c.cell_type = "code")) ns)
  ∧ (load_module Option.none "seq" fs_seq read_seq ⟨[], []⟩).1
      = .ok (insertKey (insertKey (module_init_ns "seq" "seq.ipynb")
               "x" (PyVal.int 1)) "y" (PyVal.int 2))
  ∧ lookupKey (insertKey (insertKey (module_init_ns "seq" "seq.ipynb")
        "x" (PyVal.int 1)) "y" (PyVal.int 2)) "y" = some (PyVal.int 2)
  ∧ lookupKey (insertKey (insertKey (module_init_ns "seq" "seq.ipynb")
        "x" (PyVal.int 1)) "y" (PyVal.int 2)) "x" = some (PyVal.int 1) :=
  ⟨run_cells_filter_code, rfl, rfl, rfl⟩

theorem find_in_dirs_cons (name : String) (fs : String → Bool) (d : String)
    (rest : List String) :
    find_in_dirs name fs (d :: rest) =
      (if fs (nb_candidate name d) then some (nb_candidate name d)
       else if fs (nb_candidate_spaced name d) then some (nb_candidate_spaced name d)
       else find_in_dirs name fs rest) := rfl

theorem find_in_dirs_eq_none (name : String) (fs : String → Bool) (ds : List String) :
    find_in_dirs name fs ds = Option.none ↔
      ∀ d ∈ ds, fs (nb_candidate name d) = false ∧ fs (nb_candidate_spaced name d) = false := by
  induction ds with
  | nil => simp [find_in_dirs]
  | cons d rest ih =>
      rw [find_in_dirs_cons]
      cases h1 : fs (nb_candidate name d) with
      | true => simp [h1]
      | false =>
          cases h2 : fs (nb_candidate_spaced name d) with
          | true => simp [h1, h2]
          | false => simp [h1, h2, ih]

theorem find_in_dirs_eq_some (name : String) (fs : String → Bool) (ds : List String)
    (p : String) :
    find_in_dirs name fs ds = some p ↔
      ∃ pre d post, ds = pre ++ d :: post
        ∧ (∀ d2 ∈ pre, fs (nb_candidate name d2) = false
             ∧ fs (nb_candidate_spaced name d2) = false)
        ∧ ((fs (nb_candidate name d) = true ∧ p = nb_candidate name d)
           ∨ (fs (nb_candidate name d) = false ∧ fs (nb_candidate_spaced name d) = true
              ∧ p = nb_candidate_spaced name d)) := by
  induction ds with
  | nil =>
      constructor
      · intro h
        simp [find_in_dirs] at h
      · rintro ⟨pre, d, post, habs, -⟩
        cases pre <;> simp at habs
  | cons d rest ih =>
      rw [find_in_dirs_cons]
      cases h1 : fs (nb_candidate name d) with
      | true =>
          rw [if_pos rfl]
          constructor
          · intro h
            exact ⟨[], d, rest, rfl, by simp, Or.inl ⟨h1, (Option.some.inj h).symm⟩⟩
          · rintro ⟨pre, d2, post, heq, hpre, hcase⟩
            cases pre with
            | nil =>
                obtain ⟨hd, -⟩ := List.cons.inj heq
                subst hd
                rcases hcase with ⟨-, hp⟩ | ⟨hf, -, -⟩
                · rw [hp]
                · rw [h1] at hf
                  cases hf
            | cons q pre2 =>
                obtain ⟨hd, -⟩ := List.cons.inj heq
                subst hd
                have hq := (hpre d (by simp)).1
                rw [h1] at hq
                cases hq
      | false =>
          rw [if_neg (by simp [h1])]
          cases h2 : fs (nb_candidate_spaced name d) with
          | true =>
              rw [if_pos rfl]
              constructor
              · intro h
                exact ⟨[], d, rest, rfl, by simp,
                  Or.inr ⟨h1, h2, (Option.some.inj h).symm⟩⟩
              · rintro ⟨pre, d2, post, heq, hpre, hcase⟩
                cases pre with
                | nil =>
                    obtain ⟨hd, -⟩ := List.cons.inj heq
                    subst hd
                    rcases hcase with ⟨hf, -⟩ | ⟨-, -, hp⟩
                    · rw [h1] at hf
                      cases hf
                    · rw [hp]
                | cons q pre2 =>
                    obtain ⟨hd, -⟩ := List.cons.inj heq
                    subst hd
                    have hq := (hpre d (by simp)).2
                    rw [h2] at hq
                    cases hq
          | false =>
              rw [if_neg (by simp [h2])]
              rw [ih]
              constructor
              · rintro ⟨pre, d2, post, heq, hpre, hcase⟩
                refine ⟨d :: pre, d2, post, by rw [heq]; rfl, ?_, hcase⟩
                intro q hq
                rcases List.mem_cons.mp hq with hq | hq
                · subst hq
                  exact ⟨h1, h2⟩
                · exact hpre q hq
              · rintro ⟨pre, d2, post, heq, hpre, hcase⟩
                cases pre with
                | nil =>
                    obtain ⟨hd, -⟩ := List.cons.inj heq
                    subst hd
                    rcases hcase with ⟨hf, -⟩ | ⟨-, hg, -⟩
                    · rw [h1] at hf
                      cases hf
                    · rw [h2] at hg
                      cases hg
                | cons q pre2 =>
                    obtain ⟨hd, htl⟩ := List.cons.inj heq
                    subst hd
                    exact ⟨pre2, d2, post, htl, fun r hr => hpre r (by simp [hr]), hcase⟩

/-- Claim C4: find_notebook takes the last dotted segment of the module
name as the base file name and scans the directories in list order; it
returns nothing exactly when no directory holds either candidate, and it
returns a path exactly when that path is the winning candidate of the
first directory with any match, the plain candidate being preferred over
the underscore-to-space variant within that step. -/
theorem find_notebook_first_match (fullname d0 : String) (drest : List String)
    (fs : String → Bool) :
    (find_notebook fullname (some (d0 :: drest)) fs = Option.none ↔
       ∀ d ∈ d0 :: drest, fs (nb_candidate (base_name fullname) d) = false
         ∧ fs (nb_candidate_spaced (base_name fullname) d) = false)
  ∧ ∀ p : String, find_notebook fullname (some (d0 :: drest)) fs = some p ↔
      ∃ pre d post, d0 :: drest = pre ++ d :: post
        ∧ (∀ d2 ∈ pre, fs (nb_candidate (base_name fullname) d2) = false
             ∧ fs (nb_candidate_spaced (base_name fullname) d2) = false)
        ∧ ((fs (nb_candidate (base_name fullname) d) = true
              ∧ p = nb_candidate (base_name fullname) d)
           ∨ (fs (nb_candidate (base_name fullname) d) = false
              ∧ fs (nb_candidate_spaced (base_name fullname) d) = true
              ∧ p = nb_candidate_spaced (base_name fullname) d)) := by
  constructor
  · exact find_in_dirs_eq_none (base_name fullname) fs (d0 :: drest)
  · intro p
    exact find_in_dirs_eq_some (base_name fullname) fs (d0 :: drest) p

theorem replace_underscores_append (a b : String) :
    replace_underscores (a ++ b) = replace_underscores a ++ replace_underscores b := by
  obtain ⟨la⟩ := a
  obtain ⟨lb⟩ := b
  show String.mk ((la ++ lb).map _) = String.mk ((la.map _) ++ (lb.map _))
  rw [List.map_append]

theorem replace_join_foo (d : String) (hd : replace_underscores d = d) :
    replace_underscores (path_join d "Foo_Bar.ipynb") = path_join d "Foo Bar.ipynb" := by
  by_cases h0 : d = ""
  · subst h0
    decide
  · by_cases h1 : d.data.getLast? = some '/'
    · have e1 : path_join d "Foo_Bar.ipynb" = d ++ "Foo_Bar.ipynb" := by
        unfold path_join
        rw [if_neg (by decide), if_neg h0, if_pos h1]
      have e2 : path_join d "Foo Bar.ipynb" = d ++ "Foo Bar.ipynb" := by
        unfold path_join
        rw [if_neg (by decide), if_neg h0, if_pos h1]
      have e3 : replace_underscores "Foo_Bar.ipynb" = "Foo Bar.ipynb" := by decide
      rw [e1, e2, replace_underscores_append, hd, e3]
    · have e1 : path_join d "Foo_Bar.ipynb" = d ++ "/" ++ "Foo_Bar.ipynb" := by
        unfold path_join
        rw [if_neg (by decide), if_neg h0, if_neg h1]
      have e2 : path_join d "Foo Bar.ipynb" = d ++ "/" ++ "Foo Bar.ipynb" := by
        unfold path_join
        rw [if_neg (by decide), if_neg h0, if_neg h1]
      have e3 : replace_underscores "Foo_Bar.ipynb" = "Foo Bar.ipynb" := by decide
      have e4 : replace_underscores "/" = "/" := by decide
      rw [e1, e2, replace_underscores_append, replace_underscores_append, hd, e3, e4]

/-- Claim C3 counterexample: with only the spaced file in the spaced
directory present, a request for Foo against the underscored directory
my_dir resolves to the path inside the distinct directory called my dir:
the fallback rewrote the directory component of the candidate path,
which the claim asserts is left unchanged. -/
theorem find_notebook_fallback_renames_directory_cex :
    find_notebook "Foo" (some ["my_dir"]) fs_space = some "my dir/Foo.ipynb"
  ∧ fs_space "my_dir/Foo.ipynb" = false
  ∧ ("my dir/Foo.ipynb" : String) ≠ "my_dir/Foo.ipynb" := ⟨rfl, rfl, by decide⟩

/-- Claim C3 amended: in the fallback step every underscore of the whole
candidate path is replaced by a space, directory components included;
when the directory name itself contains no underscore, the claimed
per-directory behavior holds for a request for Foo_Bar: the underscored
file wins when present, otherwise the spaced file in the same directory
is returned when present, and otherwise the scan of that directory
yields nothing. -/
theorem find_notebook_fallback_whole_path (d : String) (fs : String → Bool)
    (hd : replace_underscores d = d) :
    nb_candidate_spaced "Foo_Bar" d = path_join d "Foo Bar.ipynb"
  ∧ (fs (path_join d "Foo_Bar.ipynb") = true →
       find_notebook "Foo_Bar" (some [d]) fs = some (path_join d "Foo_Bar.ipynb"))
  ∧ (fs (path_join d "Foo_Bar.ipynb") = false →
       fs (path_join d "Foo Bar.ipynb") = true →
       find_notebook "Foo_Bar" (some [d]) fs = some (path_join d "Foo Bar.ipynb"))
  ∧ (fs (path_join d "Foo_Bar.ipynb") = false →
       fs (path_join d "Foo Bar.ipynb") = false →
       find_notebook "Foo_Bar" (some [d]) fs = Option.none) := by
  have hc1 : nb_candidate "Foo_Bar" d = path_join d "Foo_Bar.ipynb" := rfl
  have hc2 : nb_candidate_spaced "Foo_Bar" d = path_join d "Foo Bar.ipynb" :=
    replace_join_foo d hd
  refine ⟨hc2, ?_, ?_, ?_⟩
  · intro hf
    show find_in_dirs "Foo_Bar" fs [d] = _
    rw [find_in_dirs_cons, hc1, if_pos hf]
  · intro hf hg
    show find_in_dirs "Foo_Bar" fs [d] = _
    rw [find_in_dirs_cons, hc1, hc2, if_neg (by simp [hf]), if_pos hg]
  · intro hf hg
    show find_in_dirs "Foo_Bar" fs [d] = _
    rw [find_in_dirs_cons, hc1, hc2, if_neg (by simp [hf]), if_neg (by simp [hg])]
    rfl

theorem find_notebook_fallback_whole_path_witness :
    replace_underscores "lib" = "lib"
  ∧ fs_foo (path_join "lib" "Foo_Bar.ipynb") = false
  ∧ fs_foo (path_join "lib" "Foo Bar.ipynb") = true
  ∧ find_notebook "Foo_Bar" (some ["lib"]) fs_foo = some (path_join "lib" "Foo Bar.ipynb") :=
  ⟨rfl, rfl, rfl, (find_notebook_fallback_whole_path "lib" fs_foo rfl).2.2.1 rfl rfl⟩

theorem loader_for_key_lookup (st : FinderState) (k : FinderKey)
    (p : Option (List String)) :
    lookupKey ((loader_for_key st k p).2).loaders k = some ((loader_for_key st k p).1) := by
  unfold loader_for_key
  cases h : lookupKey st.loaders k with
  | none => simp [h, lookupKey_insertKey_self]
  | some L => simp [h]

theorem find_module_ok_some (st : FinderState) (n : String) (p : Option (List String))
    (fs : String → Bool) (L : NotebookLoader) (st2 : FinderState)
    (h : find_module st n p fs = .ok (some L, st2)) :
    ∃ k, path_key p = .ok k
      ∧ L = (loader_for_key st k p).1 ∧ st2 = (loader_for_key st k p).2 := by
  unfold find_module at h
  cases hf : find_notebook n p fs with
  | none =>
      rw [hf] at h
      simp at h
  | some q =>
      rw [hf] at h
      cases hk : path_key p with
      | error e =>
          simp only [hk] at h
          exact Except.noConfusion h
      | ok k =>
          simp only [hk] at h
          have h2 := Except.ok.inj h
          have h3 := congrArg Prod.fst h2
          have h4 := congrArg Prod.snd h2
          exact ⟨k, rfl, (Option.some.inj h3).symm, h4.symm⟩

/-- Claim C6 amended: the finder keeps one loader per distinct cache key,
the key being None for an absent search path and the path-separator
join of the list otherwise.  A repeated successful call with the same
search path returns the identical cached loader and leaves the cache
untouched; and for two successful calls made on a fresh finder, the
returned loaders are identical exactly when the derived keys coincide,
so distinct search paths that join to the same string share one
loader. -/
theorem find_module_loader_per_key :
    (∀ (st : FinderState) (n1 : String) (p1 : Option (List String)) (fs1 : String → Bool)
        (L : NotebookLoader) (st1 : FinderState) (n2 : String) (fs2 : String → Bool)
        (q : String),
        find_module st n1 p1 fs1 = .ok (some L, st1) →
        find_notebook n2 p1 fs2 = some q →
        find_module st1 n2 p1 fs2 = .ok (some L, st1))
  ∧ (∀ (n1 : String) (p1 : Option (List String)) (fs1 : String → Bool)
       (L1 : NotebookLoader) (st1 : FinderState)
       (n2 : String) (p2 : Option (List String)) (fs2 : String → Bool)
       (L2 : NotebookLoader) (st2 : FinderState),
       find_module finderInit n1 p1 fs1 = .ok (some L1, st1) →
       find_module st1 n2 p2 fs2 = .ok (some L2, st2) →
       (L1 = L2 ↔ path_key p1 = path_key p2)) := by
  constructor
  · intro st n1 p1 fs1 L st1 n2 fs2 q h hq
    obtain ⟨k, hk, hL, hst⟩ := find_module_ok_some st n1 p1 fs1 L st1 h
    have hlook : lookupKey st1.loaders k = some L := by
      rw [hst, hL]
      exact loader_for_key_lookup st k p1
    unfold find_module
    rw [hq]
    simp only [hk]
    unfold loader_for_key
    simp only [hlook]
  · intro n1 p1 fs1 L1 st1 n2 p2 fs2 L2 st2 h1 h2
    obtain ⟨k1, hk1, hL1, hst1⟩ := find_module_ok_some finderInit n1 p1 fs1 L1 st1 h1
    obtain ⟨k2, hk2, hL2, hst2⟩ := find_module_ok_some st1 n2 p2 fs2 L2 st2 h2
    have e1 : loader_for_key finderInit k1 p1
        = (⟨p1, 0⟩, ⟨[(k1, ⟨p1, 0⟩)], 1⟩) := rfl
    rw [e1] at hL1 hst1
    by_cases hkk : k1 = k2
    · subst hkk
      have elook : lookupKey st1.loaders k1 = some L1 := by
        rw [hst1, hL1]
        simp [lookupKey]
      have e2 : loader_for_key st1 k1 p2 = (L1, st1) := by
        unfold loader_for_key
        rw [elook]
      rw [e2] at hL2
      constructor
      · intro _
        rw [hk1, hk2]
      · intro _
        rw [hL1, hL2, hL1]
    · have elook : lookupKey st1.loaders k2 = Option.none := by
        rw [hst1]
        simp [lookupKey, hkk]
      have e2 : (loader_for_key st1 k2 p2).1 = ⟨p2, st1.next_oid⟩ := by
        unfold loader_for_key
        rw [elook]
      rw [e2] at hL2
      constructor
      · intro hL
        exfalso
        rw [hL1, hL2] at hL
        have hoid := congrArg NotebookLoader.oid hL
        rw [hst1] at hoid
        simp at hoid
      · intro hp
        exfalso
        rw [hk1, hk2] at hp
        exact hkk (Except.ok.inj hp)

theorem find_module_loader_per_key_witness :
    find_module finderInit "x" (some ["a", "b"]) fs_two = .ok (some loader_ab, finder_ab)
  ∧ find_notebook "x" (some ["a", "b"]) fs_two = some "a/x.ipynb"
  ∧ find_module finder_ab "x" (some ["a", "b"]) fs_two = .ok (some loader_ab, finder_ab)
  ∧ (loader_ab = loader_ab
       ↔ path_key (some ["a", "b"]) = path_key (some ["a/b"])) :=
  ⟨rfl, rfl,
    find_module_loader_per_key.1 finderInit "x" (some ["a", "b"]) fs_two loader_ab
      finder_ab "x" fs_two "a/x.ipynb" rfl rfl,
    find_module_loader_per_key.2 "x" (some ["a", "b"]) fs_two loader_ab finder_ab
      "x" (some ["a/b"]) fs_two loader_ab finder_ab rfl rfl⟩

/-- Claim C6 counterexample: from a fresh finder, a first call with the
search path of directories a and b and a second call with the
single-directory search path a/b both locate a notebook and return the
identical cached loader object, although the two search paths differ:
the loaders dict is keyed by the separator join, not by the path. -/
theorem find_module_key_collision_cex :
    find_module finderInit "x" (some ["a", "b"]) fs_two = .ok (some loader_ab, finder_ab)
  ∧ find_module finder_ab "x" (some ["a/b"]) fs_two = .ok (some loader_ab, finder_ab)
  ∧ (some ["a", "b"] : Option (List String)) ≠ some ["a/b"] := ⟨rfl, rfl, by decide⟩

end NbImport
